import Mathlib

/-!
Verification of the idempotent remote-field reconciliation protocol of the
Jellyfin-Scripts repository.

The Python sources are shallowly embedded as executable Lean definitions:

* `Value`, `pyStrip`, `normalizeValue`, `normalizeRatingValue` embed the
  scalar values handled by `JellyfinAPI._normalize_value` (jellyfin_core.py)
  and `JellyfinAPI._normalize_rating_value` (commonsense_ratings.py);
* `Record`, `recGet`, `recSet`, `applyStep`, `updateMediaMetadata` embed
  `JellyfinAPI.update_media_metadata` (jellyfin_core.py), with the remote
  read modelled as a `FetchResult` and the issued POST bodies collected in
  the returned list;
* `updateCommonsenseRating` embeds
  `JellyfinAPI.update_commonsense_rating` (commonsense_ratings.py);
* `MediaType` embeds the `MediaType` enum of jellyfin_core.py, together
  with `MediaType.attr` modelling Python attribute lookup on the enum class;
* `selectFrom` / `getMediaByType` embed the provider-ID based partition of
  `JellyfinAPI._get_media_by_type` (commonsense_ratings.py);
* `mapToAustralianRating`, `processMediaRatings`, `applyRatingUpdates`
  embed `AustralianRatingProcessor` (aus_rating.py);
* `bulkUpdateRatings` embeds `MediaLibrary.bulk_update_ratings`
  (jellyfin_core.py), with the environment behaviour of each per-item
  update call given as an `ItemOutcome`;
* `ausRatingMain`, `animeCleanMain`, `commonsenseScriptExit` embed the
  exit-code logic of the three scripts' entry points.
-/

/-- Python scalar values as they occur in the metadata JSON handled by the
scripts: `None`, strings, and integers. -/
inductive Value where
  | none
  | str (s : String)
  | int (n : Int)
deriving DecidableEq

/-- Python `str.strip()`: remove whitespace from both ends of a string. -/
def pyStrip (s : String) : String :=
  String.mk (((s.data.dropWhile Char.isWhitespace).reverse.dropWhile Char.isWhitespace).reverse)

/-- Python `str(value)` on the scalar values above. -/
def Value.pyStr : Value → String
  | Value.none => "None"
  | Value.str s => s
  | Value.int n => toString n

/-- `JellyfinAPI._normalize_value` (jellyfin_core.py, lines 414-428):
`None` maps to `None`; any other value is converted with `str` and
stripped, and an empty result maps to `None`. -/
def normalizeValue (v : Value) : Option String :=
  match v with
  | Value.none => Option.none
  | v =>
    let n := pyStrip (Value.pyStr v)
    if n = "" then Option.none else some n

/-- `JellyfinAPI._normalize_rating_value` (commonsense_ratings.py, lines
172-180), textually the same algorithm as `_normalize_value`. -/
def normalizeRatingValue (v : Value) : Option String :=
  match v with
  | Value.none => Option.none
  | v =>
    let n := pyStrip (Value.pyStr v)
    if n = "" then Option.none else some n

/-- A fetched item representation: the JSON dictionary returned by
`GET /Items/{id}`, as an association list with unique keys. -/
abbrev Record := List (String × Value)

/-- Python `dict.get(field)`: the value stored under `f`, or `None` when
the key is absent. -/
def recGet : Record → String → Value
  | [], _ => Value.none
  | p :: rest, f => if p.1 = f then p.2 else recGet rest f

/-- Python `dict[field] = value`: replace the value under an existing key
in place, or append a new key at the end. -/
def recSet : Record → String → Value → Record
  | [], f, v => [(f, v)]
  | p :: rest, f, v => if p.1 = f then (f, v) :: rest else p :: recSet rest f v

/-- One iteration of the `for field, new_value in updates.items()` loop of
`update_media_metadata`: compare normalized current and desired values and
mutate the fetched representation when they differ. -/
def applyStep (acc : Record × Bool) (u : String × Value) : Record × Bool :=
  if normalizeValue (recGet acc.1 u.1) ≠ normalizeValue u.2 then
    (recSet acc.1 u.1 u.2, true)
  else acc

/-- Result of `get_media_item_details`: `ok` carries the parsed JSON of a
successful read, `fail` stands for a transport error or a `None` result. -/
inductive FetchResult where
  | ok (data : Record)
  | fail
deriving DecidableEq

/-- `JellyfinAPI.update_media_metadata` (jellyfin_core.py, lines 343-382).
The first component is the returned `(success, was_updated)` pair; the
second component is the list of POST bodies issued (the code issues at
most one).  `writeOk` tells whether the POST, if issued, succeeds.  An
empty dictionary is falsy in Python, so `if not current_data` also treats
`{}` as a failed read. -/
def updateMediaMetadata (fetch : FetchResult) (updates : List (String × Value))
    (writeOk : Bool) : (Bool × Bool) × List Record :=
  match fetch with
  | FetchResult.fail => ((false, false), [])
  | FetchResult.ok data =>
    if data = [] then ((false, false), [])
    else
      let res := updates.foldl applyStep (data, false)
      if res.2 then
        if writeOk then ((true, true), [res.1]) else ((false, false), [res.1])
      else ((true, false), [])

/-- `JellyfinAPI.update_commonsense_rating` (commonsense_ratings.py, lines
141-170): write the `CustomRating` field only when the desired rating is
present (not `None` after normalization) and differs from the current one. -/
def updateCommonsenseRating (fetch : FetchResult) (rating : Value)
    (writeOk : Bool) : (Bool × Bool) × List Record :=
  match fetch with
  | FetchResult.fail => ((false, false), [])
  | FetchResult.ok data =>
    let currentCustom := normalizeRatingValue (recGet data "CustomRating")
    let newCustom := normalizeRatingValue rating
    if newCustom ≠ Option.none ∧ currentCustom ≠ newCustom then
      let newData := recSet data "CustomRating" rating
      if writeOk then ((true, true), [newData]) else ((false, false), [newData])
    else ((true, false), [])

/-- The `MediaType` enum of jellyfin_core.py (lines 19-22): it defines
exactly the members `MOVIE = "Movie"` and `SERIES = "Series"`. -/
inductive MediaType where
  | movie
  | series
deriving DecidableEq

/-- The `value` attribute of each enum member. -/
def MediaType.value : MediaType → String
  | MediaType.movie => "Movie"
  | MediaType.series => "Series"

/-- Python attribute lookup on the `MediaType` enum class: `MediaType.X`
succeeds exactly for the members defined in jellyfin_core.py. -/
def MediaType.attr (name : String) : Option MediaType :=
  if name = "MOVIE" then some MediaType.movie
  else if name = "SERIES" then some MediaType.series
  else Option.none

/-- The `MediaItem` dataclass of jellyfin_core.py (lines 30-43). -/
structure MediaItemT where
  id : String
  name : String
  mediaType : MediaType
  providerIds : List (String × String)
  officialRating : Option String
  customRating : Option String
deriving DecidableEq

/-- `CombinedFilter.should_include` (jellyfin_core.py, lines 542-550):
an item is included when every filter in the list accepts it. -/
def combinedShouldInclude (filters : List (MediaItemT → Bool)) (item : MediaItemT) : Bool :=
  filters.all (fun f => f item)

/-- Filter-predicate candidate selection: the sublist of items accepted by
the combined filter, as done in `get_media_items` (jellyfin_core.py). -/
def selectCandidates (filters : List (MediaItemT → Bool)) (items : List MediaItemT) :
    List MediaItemT :=
  items.filter (combinedShouldInclude filters)

/-- `PROVIDER_PRIORITY` (commonsense_ratings.py, line 15). -/
def PROVIDER_PRIORITY : List String := ["Imdb", "Tmdb", "Trakt", "Tvdb"]

/-- A raw item as returned by the `GET /Users/{id}/Items` call in
`_get_media_by_type`: id, name, provider-ID dictionary, custom rating. -/
structure RawItem where
  id : String
  name : String
  providerIds : List (String × String)
  customRating : Option String
deriving DecidableEq

/-- Python `dict.get(key)` on a string-to-string dictionary. -/
def dictGet : List (String × String) → String → Option String
  | [], _ => Option.none
  | q :: rest, p => if q.1 = p then some q.2 else dictGet rest p

/-- The provider-selection loop of `_get_media_by_type`
(commonsense_ratings.py, lines 115-125): the first provider in priority
order whose ID exists, is non-empty (truthy) and is not in `used_ids`. -/
def selectFrom (used : List String) (pids : List (String × String)) :
    List String → Option (String × String)
  | [] => Option.none
  | p :: rest =>
    match dictGet pids p with
    | some pid =>
      if pid ≠ "" ∧ pid ∉ used then some (p.toLower, pid)
      else selectFrom used pids rest
    | Option.none => selectFrom used pids rest

/-- The `MediaData` dataclass of commonsense_ratings.py (lines 36-44). -/
structure MediaData where
  id : String
  name : String
  mediaType : MediaType
  provider : String
  externalId : String
  customRating : Option String
deriving DecidableEq

/-- The accumulating state of the `_get_media_by_type` loop:
`media_with_ids` (a dictionary keyed by item id), `media_missing_ids`,
and the `used_ids` set. -/
structure GMState where
  withIds : List (String × MediaData)
  missing : List String
  used : List String
deriving DecidableEq

/-- One iteration of the `for item in items` loop of `_get_media_by_type`
(commonsense_ratings.py, lines 111-137). -/
def gmStep (mt : MediaType) (st : GMState) (item : RawItem) : GMState :=
  match selectFrom st.used item.providerIds PROVIDER_PRIORITY with
  | some pr =>
    { st with
      withIds := st.withIds ++
        [(item.id, ⟨item.id, item.name, mt, pr.1, pr.2, item.customRating⟩)],
      used := st.used ++ [pr.2] }
  | Option.none => { st with missing := st.missing ++ [item.name] }

/-- `JellyfinAPI._get_media_by_type` (commonsense_ratings.py, lines
90-139), applied to the parsed item list of a successful fetch. -/
def getMediaByType (mt : MediaType) (items : List RawItem) : GMState :=
  items.foldl (gmStep mt) ⟨[], [], []⟩

/-- All provider-ID values carried by an item. -/
def pidValues (item : RawItem) : List String := item.providerIds.map Prod.snd

/-- Two items have no provider-ID value in common. -/
def pidsDisjoint (a b : RawItem) : Prop :=
  ∀ x ∈ pidValues a, x ∉ pidValues b

instance (a b : RawItem) : Decidable (pidsDisjoint a b) := by
  unfold pidsDisjoint; exact List.decidableBAll _ _

/-- `AUSTRALIAN_RATINGS` (aus_rating.py, line 29). -/
def AUSTRALIAN_RATINGS : List String :=
  ["E", "G", "PG", "M", "MA 15+", "R 18+", "X 18+", "RC"]

/-- `AustralianRatingProcessor.map_to_australian_rating` (aus_rating.py,
lines 218-240).  The second component is the `_unmappable_ratings`
recording, flattened to `(stripped rating, media name)` pairs appended at
the end.  A falsy rating (`None` or `""`) is returned as `None`; an
already-Australian stripped rating is returned as-is; a mapping hit with a
truthy target is returned; otherwise the miss is recorded and the stripped
original is returned. -/
def mapToAustralianRating (mappings : List (String × String))
    (unmappable : List (String × String)) (rating : Option String)
    (mediaName : String) : Option String × List (String × String) :=
  match rating with
  | Option.none => (Option.none, unmappable)
  | some r =>
    if r = "" then (Option.none, unmappable)
    else
      let rs := pyStrip r
      if rs ∈ AUSTRALIAN_RATINGS then (some rs, unmappable)
      else
        match dictGet mappings rs with
        | some m =>
          if m ≠ "" then (some m, unmappable)
          else (some rs, unmappable ++ [(rs, mediaName)])
        | Option.none => (some rs, unmappable ++ [(rs, mediaName)])

/-- The `RatingUpdate` dataclass of aus_rating.py (lines 43-58): the
fields prepared by `process_media_ratings`. -/
structure RatingUpdateT where
  itemId : String
  name : String
  mediaType : String
  oldRating : String
  newRating : String
deriving DecidableEq

/-- One iteration of `process_media_ratings` (aus_rating.py, lines
242-264): map the item's official rating and record a `RatingUpdate` with
`old_rating = official_rating or ""` and `new_rating = mapped or ""`. -/
def processStep (mappings : List (String × String))
    (acc : List RatingUpdateT × List (String × String)) (item : MediaItemT) :
    List RatingUpdateT × List (String × String) :=
  let mr := mapToAustralianRating mappings acc.2 item.officialRating item.name
  (acc.1 ++ [⟨item.id, item.name, item.mediaType.value,
              item.officialRating.getD "", mr.1.getD ""⟩],
   mr.2)

/-- `AustralianRatingProcessor.process_media_ratings` (aus_rating.py,
lines 242-264), starting from an empty unmappable record. -/
def processMediaRatings (mappings : List (String × String))
    (items : List MediaItemT) : List RatingUpdateT × List (String × String) :=
  items.foldl (processStep mappings) ([], [])

/-- Behaviour of one per-item update call as seen by a batch driver:
the call returned `(True, was_updated)`, returned `(False, _)`, or raised
an exception. -/
inductive ItemOutcome where
  | ok (wasUpdated : Bool)
  | failed
  | raised
deriving DecidableEq

/-- One iteration of `apply_rating_updates` (aus_rating.py, lines
266-309).  The state is the counter triple `(successful, skipped, failed)`
together with the number of `update_official_rating` calls issued.  An
update whose new rating equals its old rating is skipped without a call;
otherwise the call is issued and its outcome classified, with a raised
exception caught and counted as failed. -/
def ausApplyStep (acc : (Nat × Nat × Nat) × Nat)
    (x : RatingUpdateT × ItemOutcome) : (Nat × Nat × Nat) × Nat :=
  if x.1.newRating ≠ x.1.oldRating then
    match x.2 with
    | ItemOutcome.ok true => ((acc.1.1 + 1, acc.1.2.1, acc.1.2.2), acc.2 + 1)
    | ItemOutcome.ok false => ((acc.1.1, acc.1.2.1 + 1, acc.1.2.2), acc.2 + 1)
    | ItemOutcome.failed => ((acc.1.1, acc.1.2.1, acc.1.2.2 + 1), acc.2 + 1)
    | ItemOutcome.raised => ((acc.1.1, acc.1.2.1, acc.1.2.2 + 1), acc.2 + 1)
  else ((acc.1.1, acc.1.2.1 + 1, acc.1.2.2), acc.2)

/-- `AustralianRatingProcessor.apply_rating_updates` (aus_rating.py, lines
266-309), as a function of the updates paired with the environment's
behaviour for each issued call. -/
def applyRatingUpdates (xs : List (RatingUpdateT × ItemOutcome)) :
    (Nat × Nat × Nat) × Nat :=
  xs.foldl ausApplyStep ((0, 0, 0), 0)

/-- One iteration of `MediaLibrary.bulk_update_ratings` (jellyfin_core.py,
lines 501-539): classify the per-item outcome into the
`(successful, skipped, failed)` counters, counting a raised exception as
failed. -/
def bulkStep (acc : Nat × Nat × Nat) (o : ItemOutcome) : Nat × Nat × Nat :=
  match o with
  | ItemOutcome.ok true => (acc.1 + 1, acc.2.1, acc.2.2)
  | ItemOutcome.ok false => (acc.1, acc.2.1 + 1, acc.2.2)
  | ItemOutcome.failed => (acc.1, acc.2.1, acc.2.2 + 1)
  | ItemOutcome.raised => (acc.1, acc.2.1, acc.2.2 + 1)

/-- `MediaLibrary.bulk_update_ratings` (jellyfin_core.py, lines 501-539),
as a function of the per-item outcomes in input order. -/
def bulkUpdateRatings (outcomes : List ItemOutcome) : Nat × Nat × Nat :=
  outcomes.foldl bulkStep (0, 0, 0)

/-- Outcome of a script run: the run completed with the given result, or
an exception escaped the orchestration code. -/
inductive RunResult (α : Type) where
  | completed (result : α)
  | raised
deriving DecidableEq

/-- Exit code of `main` in aus_rating.py (lines 445-459): 0 when the run
completed with a zero failed counter, 1 otherwise (including any raised
exception).  The result triple is `(successful, skipped, failed)`. -/
def ausRatingMain : RunResult (Nat × Nat × Nat) → Nat
  | RunResult.completed r => if r.2.2 = 0 then 0 else 1
  | RunResult.raised => 1

/-- The `CleanupResult` dataclass of anime_id_clean.py (lines 51-61). -/
structure CleanupResult where
  totalItemsProcessed : Nat
  itemsCleaned : Nat
  itemsSkipped : Nat
  itemsFailed : Nat
  providerIdsRemoved : Nat
  episodesProcessed : Nat
  episodesCleaned : Nat
  episodesFailed : Nat
deriving DecidableEq

/-- Exit code of `main` in anime_id_clean.py (lines 503-577): 1 when the
API key or base URL is missing (falsy), 1 on a raised exception, and
otherwise 0 exactly when both `items_failed` and `episodes_failed` are
zero. -/
def animeCleanMain (apiKey baseUrl : String) (run : RunResult CleanupResult) : Nat :=
  if apiKey = "" then 1
  else if baseUrl = "" then 1
  else
    match run with
    | RunResult.completed res =>
      if res.itemsFailed = 0 ∧ res.episodesFailed = 0 then 0 else 1
    | RunResult.raised => 1

/-- Process exit code of commonsense_ratings.py: the script calls `main()`
without passing its value to `exit`, and `main` returns `None` after the
loop (re-raising any exception); so the interpreter exits 0 whenever the
run completes, regardless of the failed-update count carried in the
result triple, and exits 1 only when the exception propagates. -/
def commonsenseScriptExit : RunResult (Nat × Nat × Nat) → Nat
  | RunResult.completed _ => 0
  | RunResult.raised => 1

/-- Classification of a per-item outcome as a successful update. -/
def isUpd : ItemOutcome → Bool
  | ItemOutcome.ok true => true
  | _ => false

/-- Classification of a per-item outcome as a skip (no change needed). -/
def isSkip : ItemOutcome → Bool
  | ItemOutcome.ok false => true
  | _ => false

/-- Classification of a per-item outcome as a failure, counting both a
returned failure and a raised exception. -/
def isFail : ItemOutcome → Bool
  | ItemOutcome.failed => true
  | ItemOutcome.raised => true
  | _ => false

/-- Whether `apply_rating_updates` issues an update call for this entry:
only when the new rating differs from the old one. -/
def ausCallNeeded (x : RatingUpdateT × ItemOutcome) : Bool :=
  if x.1.newRating = x.1.oldRating then false else true

/-- Entry counted as successful by `apply_rating_updates`. -/
def ausUpd (x : RatingUpdateT × ItemOutcome) : Bool :=
  ausCallNeeded x && isUpd x.2

/-- Entry counted as skipped by `apply_rating_updates`: either no call was
needed, or the call reported no change. -/
def ausSkip (x : RatingUpdateT × ItemOutcome) : Bool :=
  !ausCallNeeded x || isSkip x.2

/-- Entry counted as failed by `apply_rating_updates`. -/
def ausFail (x : RatingUpdateT × ItemOutcome) : Bool :=
  ausCallNeeded x && isFail x.2

/-- The per-item selection of `_get_media_by_type` with an empty used set,
paired with the item id, as recorded in `media_with_ids`. -/
def gmSel (mt : MediaType) (item : RawItem) : Option (String × MediaData) :=
  (selectFrom [] item.providerIds PROVIDER_PRIORITY).map
    (fun pr => (item.id, ⟨item.id, item.name, mt, pr.1, pr.2, item.customRating⟩))

/-- The per-item missing-ID entry of `_get_media_by_type` with an empty
used set. -/
def gmMiss (item : RawItem) : Option String :=
  match selectFrom [] item.providerIds PROVIDER_PRIORITY with
  | some _ => Option.none
  | Option.none => some item.name

/-- The per-item used-ID contribution of `_get_media_by_type` with an
empty used set. -/
def gmPid (item : RawItem) : Option String :=
  (selectFrom [] item.providerIds PROVIDER_PRIORITY).map Prod.snd

/-- Setting a field and reading it back yields the written value. -/
theorem recGet_recSet_self (r : Record) (f : String) (v : Value) :
    recGet (recSet r f v) f = v := by
  induction r with
  | nil => simp [recSet, recGet]
  | cons p rest ih =>
    by_cases h : p.1 = f
    · simp [recSet, recGet, h]
    · simp [recSet, recGet, h, ih]

/-- Setting a field leaves every other field unchanged. -/
theorem recGet_recSet_ne (r : Record) (f g : String) (v : Value) (h : f ≠ g) :
    recGet (recSet r f v) g = recGet r g := by
  induction r with
  | nil => simp [recSet, recGet, h]
  | cons p rest ih =>
    by_cases hp : p.1 = f
    · have hpg : p.1 ≠ g := by rw [hp]; exact h
      simp only [recSet, if_pos hp, recGet, if_neg h, if_neg hpg]
    · simp only [recSet, if_neg hp, recGet]
      by_cases hg : p.1 = g
      · rw [if_pos hg, if_pos hg]
      · rw [if_neg hg, if_neg hg]; exact ih

theorem applyStep_of_eq (acc : Record × Bool) (u : String × Value)
    (h : normalizeValue (recGet acc.1 u.1) = normalizeValue u.2) :
    applyStep acc u = acc := by
  simp [applyStep, h]

theorem applyStep_of_ne (acc : Record × Bool) (u : String × Value)
    (h : normalizeValue (recGet acc.1 u.1) ≠ normalizeValue u.2) :
    applyStep acc u = (recSet acc.1 u.1 u.2, true) := by
  simp [applyStep, h]

/-- The `changes_needed` flag computed by the update loop is true exactly
when the flag was already set or some update's normalized desired value
differs from the normalized current value of the starting record. -/
theorem applyFold_flag (updates : List (String × Value)) :
    ∀ (data : Record) (flag : Bool),
      (updates.foldl applyStep (data, flag)).2
        = (flag || updates.any
            (fun u => !(normalizeValue (recGet data u.1) == normalizeValue u.2))) := by
  induction updates with
  | nil => intro data flag; simp
  | cons u rest ih =>
    intro data flag
    by_cases h : normalizeValue (recGet data u.1) = normalizeValue u.2
    · rw [List.foldl_cons, applyStep_of_eq (data, flag) u h, ih data flag]
      simp [h]
    · rw [List.foldl_cons, applyStep_of_ne (data, flag) u h, ih _ true]
      simp [h]

/-- Fields not named by any update are never touched by the update loop. -/
theorem applyFold_frame (updates : List (String × Value)) :
    ∀ (data : Record) (flag : Bool) (g : String),
      (∀ u ∈ updates, u.1 ≠ g) →
      recGet (updates.foldl applyStep (data, flag)).1 g = recGet data g := by
  induction updates with
  | nil => intro data flag g _; rfl
  | cons u rest ih =>
    intro data flag g hg
    have hu : u.1 ≠ g := hg u (List.mem_cons_self u rest)
    have hrest : ∀ w ∈ rest, w.1 ≠ g := fun w hw => hg w (List.mem_cons_of_mem u hw)
    by_cases h : normalizeValue (recGet data u.1) = normalizeValue u.2
    · rw [List.foldl_cons, applyStep_of_eq (data, flag) u h, ih data flag g hrest]
    · rw [List.foldl_cons, applyStep_of_ne (data, flag) u h,
        ih (recSet data u.1 u.2) true g hrest, recGet_recSet_ne data u.1 g u.2 hu]

/-- With unique update keys (a Python dict), each updated field ends up at
its desired value when the normalized values differed, and keeps the
fetched value otherwise. -/
theorem applyFold_target (updates : List (String × Value)) :
    ∀ (data : Record) (flag : Bool),
      (updates.map Prod.fst).Nodup →
      ∀ u ∈ updates,
        recGet (updates.foldl applyStep (data, flag)).1 u.1
          = if normalizeValue (recGet data u.1) = normalizeValue u.2
            then recGet data u.1 else u.2 := by
  induction updates with
  | nil => intro data flag _ u hu; cases hu
  | cons u0 rest ih =>
    intro data flag hnd u hu
    have hnd0 : u0.1 ∉ rest.map Prod.fst := by
      simp only [List.map_cons, List.nodup_cons] at hnd
      exact hnd.1
    have hndr : (rest.map Prod.fst).Nodup := by
      simp only [List.map_cons, List.nodup_cons] at hnd
      exact hnd.2
    have hrest_ne : ∀ w ∈ rest, w.1 ≠ u0.1 := by
      intro w hw he
      exact hnd0 (he ▸ List.mem_map_of_mem Prod.fst hw)
    rcases List.mem_cons.mp hu with rfl | hur
    · by_cases h : normalizeValue (recGet data u.1) = normalizeValue u.2
      · rw [List.foldl_cons, applyStep_of_eq (data, flag) u h,
          applyFold_frame rest data flag u.1 hrest_ne, if_pos h]
      · rw [List.foldl_cons, applyStep_of_ne (data, flag) u h,
          applyFold_frame rest (recSet data u.1 u.2) true u.1 hrest_ne,
          recGet_recSet_self data u.1 u.2, if_neg h]
    · have hne : u0.1 ≠ u.1 := fun he => (hrest_ne u hur) he.symm
      by_cases h : normalizeValue (recGet data u0.1) = normalizeValue u0.2
      · rw [List.foldl_cons, applyStep_of_eq (data, flag) u0 h]
        exact ih data flag hndr u hur
      · rw [List.foldl_cons, applyStep_of_ne (data, flag) u0 h,
          ih (recSet data u0.1 u0.2) true hndr u hur,
          recGet_recSet_ne data u0.1 u.1 u0.2 hne]

/-- C1 (amended): when the representation is fetched successfully and some
target field's normalized current value differs from its normalized
desired value, exactly one write is issued; the written representation
equals the fetched one on every field outside `updates`, each differing
target field is set to its desired value, and each target field that was
already normalized-equal keeps its fetched value. -/
theorem C1_write_frame (data : Record) (updates : List (String × Value)) (writeOk : Bool)
    (hne : data ≠ [])
    (hnd : (updates.map Prod.fst).Nodup)
    (hdiff : ∃ u ∈ updates, normalizeValue (recGet data u.1) ≠ normalizeValue u.2) :
    ∃ w, (updateMediaMetadata (FetchResult.ok data) updates writeOk).2 = [w]
      ∧ (∀ g, (∀ u ∈ updates, u.1 ≠ g) → recGet w g = recGet data g)
      ∧ (∀ u ∈ updates,
          recGet w u.1 = if normalizeValue (recGet data u.1) = normalizeValue u.2
                         then recGet data u.1 else u.2) := by
  have hflag : (updates.foldl applyStep (data, false)).2 = true := by
    rw [applyFold_flag]
    simp only [Bool.false_or, List.any_eq_true]
    obtain ⟨u, hu, hne2⟩ := hdiff
    exact ⟨u, hu, by simp [hne2]⟩
  refine ⟨(updates.foldl applyStep (data, false)).1, ?_, ?_, ?_⟩
  · simp only [updateMediaMetadata]
    rw [if_neg hne]
    simp only [hflag, if_true]
    cases writeOk <;> rfl
  · intro g hg
    exact applyFold_frame updates data false g hg
  · intro u hu
    exact applyFold_target updates data false hnd u hu

/-- C1 witness: with fetched `OfficialRating = "PG-13"` and desired
`"PG"`, one write is issued, the untouched `Name` field is preserved and
the target field is set to the desired value. -/
theorem C1_witness :
    ∃ w, (updateMediaMetadata (FetchResult.ok
            [("OfficialRating", Value.str "PG-13"), ("Name", Value.str "Film")])
            [("OfficialRating", Value.str "PG")] true).2 = [w]
      ∧ (∀ g, (∀ u ∈ [("OfficialRating", Value.str "PG")], u.1 ≠ g) →
          recGet w g = recGet [("OfficialRating", Value.str "PG-13"),
            ("Name", Value.str "Film")] g)
      ∧ (∀ u ∈ [("OfficialRating", Value.str "PG")],
          recGet w u.1 = if normalizeValue (recGet [("OfficialRating", Value.str "PG-13"),
              ("Name", Value.str "Film")] u.1) = normalizeValue u.2
            then recGet [("OfficialRating", Value.str "PG-13"),
              ("Name", Value.str "Film")] u.1
            else u.2) :=
  C1_write_frame _ _ true (by decide) (by decide)
    ⟨("OfficialRating", Value.str "PG"), by decide, by decide⟩

/-- C1 counterexample: with fetched `{A: " x ", B: "y"}` and updates
`{A: "x", B: "z"}`, field `A` is a target field (passed in `updates`) and
`B` differs, so the claim asserts the written representation has `A` set
to the desired `"x"`; the code leaves `A` at the fetched `" x "` because
its normalized value already matched, so the write body is
`{A: " x ", B: "z"}`. -/
theorem C1_counterexample :
    (updateMediaMetadata (FetchResult.ok [("A", Value.str " x "), ("B", Value.str "y")])
        [("A", Value.str "x"), ("B", Value.str "z")] true).2
      = [[("A", Value.str " x "), ("B", Value.str "z")]]
    ∧ Value.str " x " ≠ Value.str "x"
    ∧ normalizeValue (recGet [("A", Value.str " x "), ("B", Value.str "y")] "A")
        = normalizeValue (Value.str "x")
    ∧ normalizeValue (recGet [("A", Value.str " x "), ("B", Value.str "y")] "B")
        ≠ normalizeValue (Value.str "z") := by
  decide

/-- C2: when every target field's normalized current value equals the
normalized desired value, both reconcilers issue zero writes and return
`(success := true, was_updated := false)`. -/
theorem C2_unchanged (data : Record) (updates : List (String × Value)) (writeOk : Bool)
    (hne : data ≠ [])
    (h : ∀ u ∈ updates, normalizeValue (recGet data u.1) = normalizeValue u.2)
    (data2 : Record) (rating : Value)
    (h2 : normalizeRatingValue (recGet data2 "CustomRating") = normalizeRatingValue rating) :
    updateMediaMetadata (FetchResult.ok data) updates writeOk = ((true, false), [])
    ∧ updateCommonsenseRating (FetchResult.ok data2) rating writeOk = ((true, false), []) := by
  constructor
  · have hflag : (updates.foldl applyStep (data, false)).2 = false := by
      rw [applyFold_flag]
      simp only [Bool.false_or, List.any_eq_false]
      intro u hu
      simp [h u hu]
    simp only [updateMediaMetadata]
    rw [if_neg hne]
    simp [hflag]
  · simp [updateCommonsenseRating, h2]

/-- C2 witness: an official rating already equal post-normalization and a
custom rating already equal produce `(true, false)` with no write. -/
theorem C2_witness :
    updateMediaMetadata (FetchResult.ok [("OfficialRating", Value.str "M")])
        [("OfficialRating", Value.str " M ")] true = ((true, false), [])
    ∧ updateCommonsenseRating (FetchResult.ok [("CustomRating", Value.str "age 10+")])
        (Value.str "age 10+") true = ((true, false), []) :=
  C2_unchanged _ _ true (by decide) (by decide) _ _ (by decide)

/-- C3: the value normalizer is a total function sending `None`, `""` and
whitespace-only strings to the absence marker, `5` and `"5"` both to
`"5"`, and every non-`None` scalar to its stripped string form (absence
marker when the stripped form is empty); the Common Sense variant computes
the same function. -/
theorem C3_normalizer_contract :
    (normalizeValue Value.none = Option.none
      ∧ normalizeValue (Value.str "") = Option.none
      ∧ normalizeValue (Value.str "   ") = Option.none)
    ∧ (normalizeValue (Value.int 5) = some "5"
      ∧ normalizeValue (Value.str "5") = some "5")
    ∧ (∀ s : String, normalizeValue (Value.str s)
        = if pyStrip s = "" then Option.none else some (pyStrip s))
    ∧ (∀ n : Int, normalizeValue (Value.int n)
        = if pyStrip (Value.pyStr (Value.int n)) = "" then Option.none
          else some (pyStrip (Value.pyStr (Value.int n))))
    ∧ (∀ v : Value, normalizeRatingValue v = normalizeValue v) := by
  refine ⟨⟨rfl, by decide, by decide⟩, ⟨by decide, by decide⟩,
    fun s => rfl, fun n => rfl, fun v => ?_⟩
  cases v <;> rfl

/-- C10: whenever the desired Common Sense rating normalizes to the
absence marker, `update_commonsense_rating` issues no write and returns
`(true, false)` for every fetched representation, so an existing remote
custom rating is never cleared by a missing upstream rating. -/
theorem C10_absent_rating_no_write (data : Record) (rating : Value) (writeOk : Bool)
    (h : normalizeRatingValue rating = Option.none) :
    updateCommonsenseRating (FetchResult.ok data) rating writeOk = ((true, false), []) := by
  simp [updateCommonsenseRating, h]

/-- C10 witness: a whitespace-only desired rating leaves an existing
custom rating untouched. -/
theorem C10_witness :
    updateCommonsenseRating (FetchResult.ok [("CustomRating", Value.str "age 10+")])
        (Value.str "   ") true = ((true, false), []) :=
  C10_absent_rating_no_write _ _ true (by decide)

theorem bulk_foldl (os : List ItemOutcome) :
    ∀ a b c : Nat,
      os.foldl bulkStep (a, b, c)
        = (a + os.countP isUpd, b + os.countP isSkip, c + os.countP isFail) := by
  induction os with
  | nil => intro a b c; simp
  | cons o rest ih =>
    intro a b c
    rw [List.foldl_cons]
    rcases o with w | _ | _
    · cases w
      · rw [show bulkStep (a, b, c) (ItemOutcome.ok false) = (a, b + 1, c) from rfl, ih]
        simp [List.countP_cons, isUpd, isSkip, isFail, Prod.ext_iff]
        omega
      · rw [show bulkStep (a, b, c) (ItemOutcome.ok true) = (a + 1, b, c) from rfl, ih]
        simp [List.countP_cons, isUpd, isSkip, isFail, Prod.ext_iff]
        omega
    · rw [show bulkStep (a, b, c) ItemOutcome.failed = (a, b, c + 1) from rfl, ih]
      simp [List.countP_cons, isUpd, isSkip, isFail, Prod.ext_iff]
      omega
    · rw [show bulkStep (a, b, c) ItemOutcome.raised = (a, b, c + 1) from rfl, ih]
      simp [List.countP_cons, isUpd, isSkip, isFail, Prod.ext_iff]
      omega

theorem bulk_count_partition (os : List ItemOutcome) :
    os.countP isUpd + os.countP isSkip + os.countP isFail = os.length := by
  induction os with
  | nil => rfl
  | cons o rest ih =>
    rcases o with w | _ | _
    · cases w <;> (simp [List.countP_cons, isUpd, isSkip, isFail]; omega)
    · simp [List.countP_cons, isUpd, isSkip, isFail]; omega
    · simp [List.countP_cons, isUpd, isSkip, isFail]; omega

theorem aus_foldl (xs : List (RatingUpdateT × ItemOutcome)) :
    ∀ s k f c : Nat,
      xs.foldl ausApplyStep ((s, k, f), c)
        = ((s + xs.countP ausUpd, k + xs.countP ausSkip, f + xs.countP ausFail),
           c + xs.countP ausCallNeeded) := by
  induction xs with
  | nil => intro s k f c; simp
  | cons x rest ih =>
    intro s k f c
    rw [List.foldl_cons]
    by_cases h : x.1.newRating = x.1.oldRating
    · have hstep : ausApplyStep ((s, k, f), c) x = ((s, k + 1, f), c) := by
        simp [ausApplyStep, h]
      rw [hstep, ih]
      simp [List.countP_cons, ausUpd, ausSkip, ausFail, ausCallNeeded, h, Prod.ext_iff]
      omega
    · rcases hx : x.2 with w | _ | _
      · cases w
        · have hstep : ausApplyStep ((s, k, f), c) x = ((s, k + 1, f), c + 1) := by
            simp [ausApplyStep, h, hx]
          rw [hstep, ih]
          simp [List.countP_cons, ausUpd, ausSkip, ausFail, ausCallNeeded, h, hx,
            isUpd, isSkip, isFail, Prod.ext_iff]
          omega
        · have hstep : ausApplyStep ((s, k, f), c) x = ((s + 1, k, f), c + 1) := by
            simp [ausApplyStep, h, hx]
          rw [hstep, ih]
          simp [List.countP_cons, ausUpd, ausSkip, ausFail, ausCallNeeded, h, hx,
            isUpd, isSkip, isFail, Prod.ext_iff]
          omega
      · have hstep : ausApplyStep ((s, k, f), c) x = ((s, k, f + 1), c + 1) := by
          simp [ausApplyStep, h, hx]
        rw [hstep, ih]
        simp [List.countP_cons, ausUpd, ausSkip, ausFail, ausCallNeeded, h, hx,
          isUpd, isSkip, isFail, Prod.ext_iff]
        omega
      · have hstep : ausApplyStep ((s, k, f), c) x = ((s, k, f + 1), c + 1) := by
          simp [ausApplyStep, h, hx]
        rw [hstep, ih]
        simp [List.countP_cons, ausUpd, ausSkip, ausFail, ausCallNeeded, h, hx,
          isUpd, isSkip, isFail, Prod.ext_iff]
        omega

theorem aus_count_partition (xs : List (RatingUpdateT × ItemOutcome)) :
    xs.countP ausUpd + xs.countP ausSkip + xs.countP ausFail = xs.length := by
  induction xs with
  | nil => rfl
  | cons x rest ih =>
    by_cases h : x.1.newRating = x.1.oldRating
    · simp [List.countP_cons, ausUpd, ausSkip, ausFail, ausCallNeeded, h]
      omega
    · rcases hx : x.2 with w | _ | _
      · cases w <;>
          (simp [List.countP_cons, ausUpd, ausSkip, ausFail, ausCallNeeded, h, hx,
            isUpd, isSkip, isFail]; omega)
      · simp [List.countP_cons, ausUpd, ausSkip, ausFail, ausCallNeeded, h, hx,
          isUpd, isSkip, isFail]
        omega
      · simp [List.countP_cons, ausUpd, ausSkip, ausFail, ausCallNeeded, h, hx,
          isUpd, isSkip, isFail]
        omega

/-- C4: both batch drivers are total folds over the whole input sequence:
every element contributes exactly one count in order, the three counters
sum to the input length (no element is skipped, no early abort), and a
per-item failure or raised exception only increments the failed counter. -/
theorem C4_batch_driver_totals (outcomes : List ItemOutcome)
    (xs : List (RatingUpdateT × ItemOutcome)) :
    bulkUpdateRatings outcomes
      = (outcomes.countP isUpd, outcomes.countP isSkip, outcomes.countP isFail)
    ∧ (bulkUpdateRatings outcomes).1 + (bulkUpdateRatings outcomes).2.1
        + (bulkUpdateRatings outcomes).2.2 = outcomes.length
    ∧ applyRatingUpdates xs
      = ((xs.countP ausUpd, xs.countP ausSkip, xs.countP ausFail),
         xs.countP ausCallNeeded)
    ∧ (applyRatingUpdates xs).1.1 + (applyRatingUpdates xs).1.2.1
        + (applyRatingUpdates xs).1.2.2 = xs.length := by
  have hb : bulkUpdateRatings outcomes
      = (outcomes.countP isUpd, outcomes.countP isSkip, outcomes.countP isFail) := by
    unfold bulkUpdateRatings
    rw [bulk_foldl]
    simp
  have ha : applyRatingUpdates xs
      = ((xs.countP ausUpd, xs.countP ausSkip, xs.countP ausFail),
         xs.countP ausCallNeeded) := by
    unfold applyRatingUpdates
    rw [aus_foldl]
    simp
  refine ⟨hb, ?_, ha, ?_⟩
  · rw [hb]; exact bulk_count_partition outcomes
  · rw [ha]; exact aus_count_partition xs

/-- C5 (amended): the Australian-rating script exits 0 exactly on a
completed run with a zero failed counter; the anime cleaner exits 0
exactly on a configured, completed run with zero failed items and zero
failed episodes; the Common Sense script, whose `main()` return value is
never passed to `exit`, exits 0 on every completed run regardless of its
failed-update count, and exits 1 only when an exception propagates. -/
theorem C5_exit_codes_amended :
    (∀ r : RunResult (Nat × Nat × Nat),
      ausRatingMain r = 0 ↔ ∃ s k, r = RunResult.completed (s, k, 0))
    ∧ (∀ (apiKey baseUrl : String) (run : RunResult CleanupResult),
        animeCleanMain apiKey baseUrl run = 0 ↔
          apiKey ≠ "" ∧ baseUrl ≠ "" ∧
          ∃ res, run = RunResult.completed res
            ∧ res.itemsFailed = 0 ∧ res.episodesFailed = 0)
    ∧ (∀ r : RunResult (Nat × Nat × Nat),
        commonsenseScriptExit r = 0 ↔ r ≠ RunResult.raised) := by
  refine ⟨?_, ?_, ?_⟩
  · intro r
    cases r with
    | completed t =>
      obtain ⟨s, k, f⟩ := t
      simp only [ausRatingMain]
      constructor
      · intro h0
        have hf : f = 0 := by
          by_contra hf
          simp [hf] at h0
        exact ⟨s, k, by rw [hf]⟩
      · rintro ⟨s2, k2, he⟩
        have hf : f = 0 := by
          simp only [RunResult.completed.injEq, Prod.mk.injEq] at he
          exact he.2.2
        rw [if_pos hf]
    | raised => simp [ausRatingMain]
  · intro apiKey baseUrl run
    by_cases hk : apiKey = ""
    · simp [animeCleanMain, hk]
    · by_cases hu : baseUrl = ""
      · simp [animeCleanMain, hk, hu]
      · cases run with
        | completed res =>
          by_cases hif : res.itemsFailed = 0 ∧ res.episodesFailed = 0
          · simp [animeCleanMain, hk, hu, hif, hif.1, hif.2]
          · have h1 : animeCleanMain apiKey baseUrl (RunResult.completed res) = 1 := by
              simp [animeCleanMain, hk, hu, hif]
            rw [h1]
            constructor
            · intro h; exact absurd h one_ne_zero
            · rintro ⟨-, -, res2, he, hr1, hr2⟩
              injection he with he2
              subst he2
              exact absurd ⟨hr1, hr2⟩ hif
        | raised => simp [animeCleanMain, hk, hu]
  · intro r
    cases r with
    | completed t => simp [commonsenseScriptExit]
    | raised => simp [commonsenseScriptExit]

/-- C5 counterexample: a completed Common Sense run with one failed update
exits with code 0, while the claim requires exit code 1 for any run that
finishes with a nonzero failed count. -/
theorem C5_counterexample :
    commonsenseScriptExit (RunResult.completed (0, 0, 1)) = 0
    ∧ commonsenseScriptExit (RunResult.completed (0, 0, 1)) ≠ 1 := by
  decide

/-- C6: the `MediaType` enum of jellyfin_core.py has no `Episode` member:
attribute lookup of `EPISODE` fails, no member carries the value
`"Episode"`, and every member is `MOVIE` or `SERIES` — so the episode-typed
construction attempted by the anime provider-ID cleaner is not
well-defined. -/
theorem C6_no_episode_variant :
    MediaType.attr "EPISODE" = Option.none
    ∧ (∀ t : MediaType, MediaType.value t ≠ "Episode")
    ∧ (∀ t : MediaType, t = MediaType.movie ∨ t = MediaType.series) := by
  refine ⟨by decide, fun t => ?_, fun t => ?_⟩
  · cases t <;> decide
  · cases t
    · exact Or.inl rfl
    · exact Or.inr rfl

/-- C8: a non-empty rating that is neither Australian (after stripping)
nor present in the combined mapping table passes through stripped but
otherwise unchanged — the mapper is total, so it never raises and never
substitutes a different value — and the `(stripped rating, media name)`
pair is appended to the unmappable record for operator review. -/
theorem C8_unmapped_passthrough (mappings unmappable : List (String × String))
    (r name : String)
    (hr : r ≠ "")
    (hna : pyStrip r ∉ AUSTRALIAN_RATINGS)
    (hnm : dictGet mappings (pyStrip r) = Option.none) :
    mapToAustralianRating mappings unmappable (some r) name
      = (some (pyStrip r), unmappable ++ [(pyStrip r, name)]) := by
  simp [mapToAustralianRating, hr, hna, hnm]

/-- C8 witness: the rating `"TV-Y7"` is neither Australian nor mapped, so
it passes through unchanged and is recorded with the media name. -/
theorem C8_witness :
    mapToAustralianRating [("PG-13", "PG")] [] (some "TV-Y7") "Some Show"
      = (some (pyStrip "TV-Y7"), [] ++ [(pyStrip "TV-Y7", "Some Show")]) :=
  C8_unmapped_passthrough [("PG-13", "PG")] [] "TV-Y7" "Some Show"
    (by decide) (by decide) (by decide)

theorem ausMember_strip (r : String) (hr : r ∈ AUSTRALIAN_RATINGS) :
    r ≠ "" ∧ pyStrip r = r := by
  fin_cases hr <;> exact ⟨by decide, by decide⟩

/-- C9: a rating already in the Australian set maps to itself (with no
unmappable recording), `process_media_ratings` turns the item into an
update whose old and new ratings coincide, and `apply_rating_updates`
classifies that update as skipped while issuing zero update calls. -/
theorem C9_australian_identity_skip (mappings unm : List (String × String))
    (r i n : String) (mt : MediaType) (pids : List (String × String))
    (co : Option String) (o : ItemOutcome)
    (hr : r ∈ AUSTRALIAN_RATINGS) :
    mapToAustralianRating mappings unm (some r) n = (some r, unm)
    ∧ processMediaRatings mappings [⟨i, n, mt, pids, some r, co⟩]
        = ([⟨i, n, mt.value, r, r⟩], [])
    ∧ applyRatingUpdates [(⟨i, n, mt.value, r, r⟩, o)] = ((0, 1, 0), 0) := by
  obtain ⟨hne, hstrip⟩ := ausMember_strip r hr
  have hmap : ∀ u : List (String × String),
      mapToAustralianRating mappings u (some r) n = (some r, u) := by
    intro u
    simp [mapToAustralianRating, hne, hstrip, hr]
  refine ⟨hmap unm, ?_, ?_⟩
  · simp [processMediaRatings, processStep, hmap]
  · simp [applyRatingUpdates, ausApplyStep]

/-- C9 witness: the already-Australian rating `"M"` is returned unchanged
by the mapper and the resulting update is skipped with zero calls. -/
theorem C9_witness :
    mapToAustralianRating [("PG-13", "PG")] [] (some "M") "Film" = (some "M", [])
    ∧ processMediaRatings [("PG-13", "PG")]
        [⟨"id1", "Film", MediaType.movie, [], some "M", Option.none⟩]
        = ([⟨"id1", "Film", MediaType.movie.value, "M", "M"⟩], [])
    ∧ applyRatingUpdates [(⟨"id1", "Film", MediaType.movie.value, "M", "M"⟩,
        ItemOutcome.ok false)] = ((0, 1, 0), 0) :=
  C9_australian_identity_skip [("PG-13", "PG")] [] "M" "id1" "Film" MediaType.movie
    [] Option.none (ItemOutcome.ok false) (by decide)

theorem dictGet_mem_values (pids : List (String × String)) (p pid : String)
    (h : dictGet pids p = some pid) : pid ∈ pids.map Prod.snd := by
  induction pids with
  | nil => cases h
  | cons q rest ih =>
    by_cases hq : q.1 = p
    · simp only [dictGet, if_pos hq, Option.some.injEq] at h
      subst h
      simp
    · simp only [dictGet, if_neg hq] at h
      simp [ih h]

theorem selectFrom_mem (pids : List (String × String)) (used : List String) :
    ∀ (prio : List String) (pr : String × String),
      selectFrom used pids prio = some pr → pr.2 ∈ pids.map Prod.snd := by
  intro prio
  induction prio with
  | nil => intro pr h; cases h
  | cons p rest ih =>
    intro pr h
    cases hd : dictGet pids p with
    | none =>
      rw [show selectFrom used pids (p :: rest) = selectFrom used pids rest from by
        simp only [selectFrom, hd]] at h
      exact ih pr h
    | some pid =>
      rw [show selectFrom used pids (p :: rest)
            = if pid ≠ "" ∧ pid ∉ used then some (p.toLower, pid)
              else selectFrom used pids rest from by
        simp only [selectFrom, hd]] at h
      by_cases hc : pid ≠ "" ∧ pid ∉ used
      · rw [if_pos hc] at h
        have h2 : pr.2 = pid := by
          injection h with h3
          rw [← h3]
        rw [h2]
        exact dictGet_mem_values pids p pid hd
      · rw [if_neg hc] at h
        exact ih pr h

theorem selectFrom_eq_of_clean (pids : List (String × String)) (used : List String)
    (hclean : ∀ x ∈ pids.map Prod.snd, x ∉ used) :
    ∀ prio : List String, selectFrom used pids prio = selectFrom [] pids prio := by
  intro prio
  induction prio with
  | nil => rfl
  | cons p rest ih =>
    cases hd : dictGet pids p with
    | none => simp only [selectFrom, hd]; exact ih
    | some pid =>
      have hpid : pid ∈ pids.map Prod.snd := dictGet_mem_values pids p pid hd
      have hnu : pid ∉ used := hclean pid hpid
      simp only [selectFrom, hd]
      by_cases hp : pid = ""
      · simp only [hp, ne_eq, not_true_eq_false, false_and, if_false]
        exact ih
      · simp [hp, hnu]

theorem pidsDisjoint_symm : Symmetric pidsDisjoint := by
  intro a b h x hxb hxa
  exact h x hxa hxb

/-- Under pairwise-disjoint provider-ID values, the `used_ids` state never
interferes, so the fold of `_get_media_by_type` computes the pointwise
per-item selection. -/
theorem gm_foldl_eq (mt : MediaType) :
    ∀ (items : List RawItem) (st : GMState),
      List.Pairwise pidsDisjoint items →
      (∀ x ∈ st.used, ∀ it ∈ items, x ∉ pidValues it) →
      items.foldl (gmStep mt) st
        = ⟨st.withIds ++ items.filterMap (gmSel mt),
           st.missing ++ items.filterMap gmMiss,
           st.used ++ items.filterMap gmPid⟩ := by
  intro items
  induction items with
  | nil => intro st _ _; simp
  | cons it rest ih =>
    intro st hpair hclean
    have hsel : selectFrom st.used it.providerIds PROVIDER_PRIORITY
        = selectFrom [] it.providerIds PROVIDER_PRIORITY := by
      apply selectFrom_eq_of_clean
      intro x hx hxu
      exact hclean x hxu it (List.mem_cons_self it rest) hx
    have hpair2 : List.Pairwise pidsDisjoint rest := (List.pairwise_cons.mp hpair).2
    have hdisj : ∀ it2 ∈ rest, pidsDisjoint it it2 := (List.pairwise_cons.mp hpair).1
    rw [List.foldl_cons]
    cases hs : selectFrom [] it.providerIds PROVIDER_PRIORITY with
    | some pr =>
      have hstep : gmStep mt st it
          = ⟨st.withIds ++ [(it.id, ⟨it.id, it.name, mt, pr.1, pr.2, it.customRating⟩)],
             st.missing, st.used ++ [pr.2]⟩ := by
        simp only [gmStep, hsel, hs]
      rw [hstep]
      have hpidmem : pr.2 ∈ pidValues it :=
        selectFrom_mem it.providerIds [] PROVIDER_PRIORITY pr hs
      have hclean2 : ∀ x ∈ st.used ++ [pr.2], ∀ it2 ∈ rest, x ∉ pidValues it2 := by
        intro x hx it2 hit2
        rcases List.mem_append.mp hx with hx1 | hx2
        · exact hclean x hx1 it2 (List.mem_cons_of_mem it hit2)
        · have hxe : x = pr.2 := by simpa using hx2
          subst hxe
          exact hdisj it2 hit2 pr.2 hpidmem
      rw [ih _ hpair2 hclean2]
      have hsel2 : gmSel mt it
          = some (it.id, ⟨it.id, it.name, mt, pr.1, pr.2, it.customRating⟩) := by
        simp [gmSel, hs]
      have hmiss2 : gmMiss it = Option.none := by simp [gmMiss, hs]
      have hpid2 : gmPid it = some pr.2 := by simp [gmPid, hs]
      simp [hsel2, hmiss2, hpid2, List.filterMap_cons]
    | none =>
      have hstep : gmStep mt st it = ⟨st.withIds, st.missing ++ [it.name], st.used⟩ := by
        simp only [gmStep, hsel, hs]
      rw [hstep]
      have hclean2 : ∀ x ∈ st.used, ∀ it2 ∈ rest, x ∉ pidValues it2 :=
        fun x hx it2 hit2 => hclean x hx it2 (List.mem_cons_of_mem it hit2)
      rw [ih ⟨st.withIds, st.missing ++ [it.name], st.used⟩ hpair2 hclean2]
      have hsel2 : gmSel mt it = Option.none := by simp [gmSel, hs]
      have hmiss2 : gmMiss it = some it.name := by simp [gmMiss, hs]
      have hpid2 : gmPid it = Option.none := by simp [gmPid, hs]
      simp [hsel2, hmiss2, hpid2, List.filterMap_cons]

/-- C7 (amended): candidate selection is deterministic (both selections
are pure functions of the input snapshot); filter-predicate selection is
order-independent (permuting the input permutes the selected candidates);
and the provider-ID partition is order-independent whenever the items'
provider-ID value sets are pairwise disjoint — with a shared provider ID
the partition may depend on input order. -/
theorem C7_selection_amended (mt : MediaType) (l l2 : List RawItem)
    (filters : List (MediaItemT → Bool)) (li li2 : List MediaItemT)
    (hp : List.Perm l l2) (hd : List.Pairwise pidsDisjoint l)
    (hq : List.Perm li li2) :
    List.Perm (getMediaByType mt l).withIds (getMediaByType mt l2).withIds
    ∧ List.Perm (getMediaByType mt l).missing (getMediaByType mt l2).missing
    ∧ List.Perm (selectCandidates filters li) (selectCandidates filters li2) := by
  have hd2 : List.Pairwise pidsDisjoint l2 :=
    hp.pairwise hd (fun {a b} h => pidsDisjoint_symm h)
  have h1 : getMediaByType mt l
      = ⟨l.filterMap (gmSel mt), l.filterMap gmMiss, l.filterMap gmPid⟩ := by
    have hh := gm_foldl_eq mt l ⟨[], [], []⟩ hd (by intro x hx; cases hx)
    simpa [getMediaByType] using hh
  have h2 : getMediaByType mt l2
      = ⟨l2.filterMap (gmSel mt), l2.filterMap gmMiss, l2.filterMap gmPid⟩ := by
    have hh := gm_foldl_eq mt l2 ⟨[], [], []⟩ hd2 (by intro x hx; cases hx)
    simpa [getMediaByType] using hh
  rw [h1, h2]
  exact ⟨hp.filterMap _, hp.filterMap _, hq.filter _⟩

/-- C7 witness: two items with distinct provider IDs, presented in both
orders, yield permuted with-ID and missing partitions. -/
theorem C7_witness :
    List.Perm (getMediaByType MediaType.movie
        [⟨"A", "Alpha", [("Imdb", "tt1")], Option.none⟩,
         ⟨"B", "Beta", [("Imdb", "tt2")], Option.none⟩]).withIds
      (getMediaByType MediaType.movie
        [⟨"B", "Beta", [("Imdb", "tt2")], Option.none⟩,
         ⟨"A", "Alpha", [("Imdb", "tt1")], Option.none⟩]).withIds
    ∧ List.Perm (getMediaByType MediaType.movie
        [⟨"A", "Alpha", [("Imdb", "tt1")], Option.none⟩,
         ⟨"B", "Beta", [("Imdb", "tt2")], Option.none⟩]).missing
      (getMediaByType MediaType.movie
        [⟨"B", "Beta", [("Imdb", "tt2")], Option.none⟩,
         ⟨"A", "Alpha", [("Imdb", "tt1")], Option.none⟩]).missing
    ∧ List.Perm (selectCandidates [] []) (selectCandidates [] []) :=
  C7_selection_amended MediaType.movie
    [⟨"A", "Alpha", [("Imdb", "tt1")], Option.none⟩,
     ⟨"B", "Beta", [("Imdb", "tt2")], Option.none⟩]
    [⟨"B", "Beta", [("Imdb", "tt2")], Option.none⟩,
     ⟨"A", "Alpha", [("Imdb", "tt1")], Option.none⟩]
    [] [] [] (by decide) (by decide) (List.Perm.refl [])

/-- C7 counterexample: two items sharing the provider ID `"tt1"` produce
different candidate sets under the two input orders — the first item in
input order captures the ID and the other lands in the missing list — so
the provider-ID selection is not order-independent as claimed. -/
theorem C7_counterexample :
    ((getMediaByType MediaType.movie
        [⟨"A", "Alpha", [("Imdb", "tt1")], Option.none⟩,
         ⟨"B", "Beta", [("Imdb", "tt1")], Option.none⟩]).withIds.map Prod.fst = ["A"])
    ∧ ((getMediaByType MediaType.movie
        [⟨"B", "Beta", [("Imdb", "tt1")], Option.none⟩,
         ⟨"A", "Alpha", [("Imdb", "tt1")], Option.none⟩]).withIds.map Prod.fst = ["B"])
    ∧ (["A"] : List String) ≠ ["B"] := by
  decide
